import Mathlib

/-
Shallow embedding of the realtime notification service.

Embedded source parts:
- the per-namespace membership store and the socket event handlers
  subscribe, subscribeCount and disconnecting registered in src/app.js;
- the HTTP fan-out router NotificationService.sendNotification with its
  helpers _validateTargets, _prepareNotificationData, _sendToUsers,
  _sendToDevices and _sendToTopics from src/services/NotificationService.js.

Values crossing the boundaries are JavaScript/JSON values, room member sets
are lists of socket ids without duplicates, and every emit performed by the
server is recorded as an explicit Emit value.
-/

/- JavaScript values as they arrive over the socket and HTTP boundaries.
Arrays and object field lists are mutually inductive so that decidable
equality is available. -/
mutual
inductive JSVal where
  | vnull
  | vbool (b : Bool)
  | vnum (n : Int)
  | vstr (s : String)
  | varr (elems : JSList)
  | vobj (fields : JSFields)
inductive JSList where
  | nil
  | cons (head : JSVal) (tail : JSList)
inductive JSFields where
  | fnil
  | fcons (key : String) (val : JSVal) (tail : JSFields)
end

deriving instance DecidableEq for JSVal, JSList, JSFields

deriving instance DecidableEq for Except

/-- Plain list of the elements of a JavaScript array. -/
def JSList.toList : JSList → List JSVal
  | .nil => []
  | .cons x rest => x :: rest.toList

/-- Property read on an object field list: first binding of the key wins
(JavaScript objects cannot bind a key twice). -/
def JSFields.get : JSFields → String → Option JSVal
  | .fnil, _ => none
  | .fcons k v rest, q => if k = q then some v else rest.get q

/-- Property write on an object field list: an existing key keeps its
position and is overwritten, a new key is appended. -/
def JSFields.set : JSFields → String → JSVal → JSFields
  | .fnil, q, w => .fcons q w .fnil
  | .fcons k v rest, q, w => if k = q then .fcons k w rest else .fcons k v (rest.set q w)

/-- Property read on a JavaScript value; only objects carry fields here. -/
def objGet (v : JSVal) (q : String) : Option JSVal :=
  match v with
  | .vobj f => f.get q
  | _ => none

/-- JavaScript truthiness of a value. -/
def jsTruthy : JSVal → Bool
  | .vnull => false
  | .vbool b => b
  | .vnum n => n != 0
  | .vstr s => s != ""
  | .varr _ => true
  | .vobj _ => true

/-- Truthiness of a property read, where an absent property is undefined and
hence falsy. -/
def jsTruthyOpt : Option JSVal → Bool
  | none => false
  | some v => jsTruthy v

/-- Index-keyed fields contributed by spreading a string. -/
def strIndexFields (i : Nat) : List Char → JSFields
  | [] => .fnil
  | c :: rest => .fcons (toString i) (.vstr (String.mk [c])) (strIndexFields (i + 1) rest)

/-- Index-keyed fields contributed by spreading an array. -/
def arrIndexFields (i : Nat) : JSList → JSFields
  | .nil => .fnil
  | .cons x rest => .fcons (toString i) x (arrIndexFields (i + 1) rest)

/-- Own enumerable properties picked up by a JavaScript object spread:
objects contribute their fields, arrays and strings contribute index-keyed
entries, primitives contribute nothing. -/
def jsSpreadFields : JSVal → JSFields
  | .vobj f => f
  | .varr xs => arrIndexFields 0 xs
  | .vstr s => strIndexFields 0 s.data
  | _ => .fnil

/- String coercion applied by the + operator and by template literals. -/
mutual
def jsCoerceStr : JSVal → String
  | .vnull => "null"
  | .vbool true => "true"
  | .vbool false => "false"
  | .vnum n => toString n
  | .vstr s => s
  | .varr xs => jsCoerceList xs
  | .vobj _ => "[object Object]"
def jsCoerceList : JSList → String
  | .nil => ""
  | .cons x .nil => jsCoerceStr x
  | .cons x rest => jsCoerceStr x ++ "," ++ jsCoerceList rest
end

/-- Boolean test that pat occurs as a prefix of l. -/
def listPrefixOf : List Char → List Char → Bool
  | [], _ => true
  | _ :: _, [] => false
  | a :: as, b :: bs => a == b && listPrefixOf as bs

/-- Boolean test that pat occurs as a contiguous infix of l. -/
def listInfixOf (pat l : List Char) : Bool :=
  match l with
  | [] => pat.isEmpty
  | _ :: rest => listPrefixOf pat l || listInfixOf pat rest

/-- String.prototype.includes: substring containment test. -/
def jsIncludes (s sub : String) : Bool := listInfixOf sub.data s.data

/-- One delivery instruction performed by the server, recording a
namespace.in(room).emit(event, payload) call: the event is emitted to every
current member of the room inside the namespace of application ns. -/
structure Emit where
  ns : String
  room : JSVal
  event : String
  payload : JSVal
deriving DecidableEq

/-- Membership store of one namespace: the adapter's rooms map as an
association list from room key to the list of member socket ids (a set, so
without duplicates). Socket.IO deletes a room from the map once it becomes
empty, so an absent key and an empty member set are indistinguishable; reads
return [] for both, which translates the source's combined checks of the
shape topicRoom && topicRoom.size > 0. -/
structure NsState where
  rooms : List (JSVal × List String)
deriving DecidableEq

/-- Room lookup on the underlying association list. -/
def lookupRoom : List (JSVal × List String) → JSVal → List String
  | [], _ => []
  | (k, ms) :: rest, q => if k = q then ms else lookupRoom rest q

/-- Member list of a room, [] when the room does not exist. -/
def getRoom (st : NsState) (q : JSVal) : List String := lookupRoom st.rooms q

/-- Helper of joinRoom on the association list: add the socket id to the
first entry of the key, or append a fresh room. -/
def addToRoom : List (JSVal × List String) → JSVal → String → List (JSVal × List String)
  | [], q, sid => [(q, [sid])]
  | (k, ms) :: rest, q, sid =>
    if k = q then (k, if sid ∈ ms then ms else ms ++ [sid]) :: rest
    else (k, ms) :: addToRoom rest q sid

/-- socket.join(room): the adapter adds the socket id to the room's member
set, creating the room if needed; adding an existing member changes
nothing. -/
def joinRoom (st : NsState) (q : JSVal) (sid : String) : NsState :=
  ⟨addToRoom st.rooms q sid⟩

/-- adapter.delAll(sid), run when the disconnect completes: the socket id is
removed from every room and rooms left empty are deleted from the map. -/
def removeSocket (st : NsState) (sid : String) : NsState :=
  ⟨(st.rooms.map (fun p => (p.1, p.2.filter (fun m => m != sid)))).filter
      (fun p => !p.2.isEmpty)⟩

/-- socket.rooms: keys of the rooms the socket is currently a member of, in
map order, as iterated by the disconnecting handler. -/
def socketRooms (st : NsState) (sid : String) : List JSVal :=
  (st.rooms.filter (fun p => decide (sid ∈ p.2))).map (fun p => p.1)

/-- Room keys present in the store; Socket.IO keeps them unique since the
store is a map. -/
def roomKeys (st : NsState) : List JSVal := st.rooms.map (fun p => p.1)

/-- Payload of a count update broadcast, carrying only the topic key and the
integer count. -/
def countPayload (topic : JSVal) (n : Nat) : JSVal :=
  .vobj (.fcons "type" (.vstr "count")
    (.fcons "topic" topic (.fcons "count" (.vnum (n : Int)) .fnil)))

/-- Rooms named by one socket.join(rooms) argument in socket.io v4: an
array argument is flattened one level into one room per element
(Set of Array.isArray(rooms) ? rooms : [rooms]), any other argument names
the single room keyed by the value itself. -/
def joinTargets : JSVal → List JSVal
  | .varr l => l.toList
  | v => [v]

/-- socket.join(rooms): add the socket to every room the argument names;
the de-duplication done by the Set construction is absorbed by joinRoom
being idempotent. -/
def socketJoin (st : NsState) (rooms : JSVal) (sid : String) : NsState :=
  (joinTargets rooms).foldl (fun s q => joinRoom s q sid) st

/-- Body of the forEach loop of the subscribe handler (src/app.js lines
97 to 117): join the topic element via socket.join (which flattens an
array-valued element); then, when the room keyed by the raw element is
non-empty and the count room keyed topic + ":count" is non-empty, emit one
dataUpdate count message with that room's current size to the count
room. -/
def subLoop (appId sid : String) : NsState → List JSVal → NsState × List Emit
  | st, [] => (st, [])
  | st, topic :: rest =>
    let st1 := socketJoin st topic sid
    let es :=
      if (getRoom st1 topic).length > 0 then
        let countKey := JSVal.vstr (jsCoerceStr topic ++ ":count")
        if (getRoom st1 countKey).length > 0 then
          [⟨appId, countKey, "dataUpdate", countPayload topic (getRoom st1 topic).length⟩]
        else []
      else []
    let next := subLoop appId sid st1 rest
    (next.1, es ++ next.2)

/-- Handler of the subscribe socket event (src/app.js lines 90 to 118): a
non-array input is logged and ignored with no state change and no emit; an
array input is processed element by element by subLoop. Only array-ness is
checked, element types are not. -/
def subscribeHandler (appId sid : String) (st : NsState) (input : JSVal) :
    NsState × List Emit :=
  match input with
  | .varr topics => subLoop appId sid st topics.toList
  | _ => (st, [])

/-- Handler of the subscribeCount socket event (src/app.js lines 120 to
125): joins the room keyed by the template literal topic + ":count" for
every element. There is no array guard, so a non-array input throws a
TypeError on eventTopics.forEach before any room is joined. -/
def subscribeCountHandler (sid : String) (st : NsState) (input : JSVal) :
    Except String NsState :=
  match input with
  | .varr topics =>
    .ok (topics.toList.foldl
      (fun s topic => joinRoom s (.vstr (jsCoerceStr topic ++ ":count")) sid) st)
  | _ => .error "TypeError: eventTopics.forEach is not a function"

/-- Membership store actually in force after the subscribeCount event: an
exception thrown inside the handler leaves the store unchanged. -/
def subscribeCountApply (sid : String) (st : NsState) (input : JSVal) : NsState :=
  match subscribeCountHandler sid st input with
  | .ok st1 => st1
  | .error _ => st

/-- Body of the forEach loop of the disconnecting handler (src/app.js lines
129 to 153): skip the socket's own id room; for a room key containing ":"
and not containing "count", read the room's size while the socket is still a
member and, when it exceeds 1, emit the decremented count to room +
":count" — with no check that this count room has any member. A non-string
room key would throw on room.includes. -/
def leaveLoop (appId sid : String) (st : NsState) : List JSVal → Except String (List Emit)
  | [] => .ok []
  | room :: rest =>
    if room = JSVal.vstr sid then leaveLoop appId sid st rest
    else
      match room with
      | .vstr r =>
        let es :=
          if jsIncludes r ":" && !jsIncludes r "count" then
            let ms := getRoom st (.vstr r)
            if ms.length > 1 then
              [⟨appId, .vstr (r ++ ":count"), "dataUpdate",
                countPayload (.vstr r) (ms.length - 1)⟩]
            else []
          else []
        (leaveLoop appId sid st rest).map (fun tail => es ++ tail)
      | _ => .error "TypeError: room.includes is not a function"

/-- Handler of the disconnecting lifecycle event (src/app.js lines 127 to
154), run before the socket's memberships are torn down: iterate over all
rooms the socket is still a member of. -/
def disconnectingHandler (appId sid : String) (st : NsState) : Except String (List Emit) :=
  leaveLoop appId sid st (socketRooms st sid)

/-- Emits contributed by one room of the disconnecting socket, used to
describe the handler's output room by room. -/
def leaveRoomEmits (appId sid : String) (st : NsState) (r : String) : List Emit :=
  if r = sid then []
  else if jsIncludes r ":" && !jsIncludes r "count" then
    let ms := getRoom st (.vstr r)
    if ms.length > 1 then
      [⟨appId, .vstr (r ++ ":count"), "dataUpdate", countPayload (.vstr r) (ms.length - 1)⟩]
    else []
  else []

/-- Transient notification request as destructured at the start of
NotificationService.sendNotification; absent body fields are none. -/
structure NotifyReq where
  appId : String
  users : Option JSVal
  devices : Option JSVal
  eventTopics : Option JSVal
  eventName : Option String
  data : Option JSVal

/-- Error thrown by the service, carrying the attached statusCode. -/
structure ErrObj where
  message : String
  statusCode : Nat
deriving DecidableEq

/-- Per-category target counts reported in the success result, each the
value of a field?.length || 0 expression. -/
structure SendStats where
  userTargets : JSVal
  deviceTargets : JSVal
  topicTargets : JSVal
deriving DecidableEq

/-- Test users && Array.isArray(users) && users.length > 0, used both by
_validateTargets and by the dispatch in sendNotification. -/
def hasTarget : Option JSVal → Bool
  | some (.varr l) => decide (0 < l.toList.length)
  | _ => false

/-- Elements of a target list; empty when the field fails hasTarget's shape
requirements. -/
def arrElems : Option JSVal → List JSVal
  | some (.varr l) => l.toList
  | _ => []

/-- Value of the expression field?.length || 0 in the result statistics: an
absent or null field yields 0 through the optional chaining, arrays and
strings yield their length, an object yields its length property when that
is truthy, and every other value, whose length is undefined, yields 0. -/
def optLen : Option JSVal → JSVal
  | some (.varr l) => .vnum (l.toList.length : Int)
  | some (.vstr s) => .vnum (s.length : Int)
  | some (.vobj f) =>
    match f.get "length" with
    | some v => if jsTruthy v then v else .vnum 0
    | none => .vnum 0
  | _ => .vnum 0

/-- NotificationService._prepareNotificationData: copy the data object, then
set type to "httpRequest" when data.type is falsy and set a timestamp when
data.timestamp is falsy (JavaScript truthiness, not key presence). The
clock value Date.now() is passed in as now. -/
def prepareNotificationData (data : JSVal) (now : Int) : JSVal :=
  let nd := jsSpreadFields data
  let nd := if jsTruthyOpt (nd.get "type") then nd else nd.set "type" (.vstr "httpRequest")
  let nd := if jsTruthyOpt (nd.get "timestamp") then nd else nd.set "timestamp" (.vnum now)
  .vobj nd

/-- Payload preparation following the specification wording instead, for
comparison with prepareNotificationData: inject type exactly when no type
key is present, attach a timestamp exactly when no timestamp key is
present. -/
def specPrepareByPresence (data : JSVal) (now : Int) : JSVal :=
  let nd := jsSpreadFields data
  let nd := if (nd.get "type").isSome then nd else nd.set "type" (.vstr "httpRequest")
  let nd := if (nd.get "timestamp").isSome then nd else nd.set "timestamp" (.vnum now)
  .vobj nd

/-- NotificationService.sendNotification: throw a 400 no-target error before
any delivery when none of users, devices, eventTopics is a non-empty array;
otherwise prepare the payload once and emit it to every user room and every
device room, and a per-topic copy of it, with topic set to that topic key,
to every topic room, all inside the namespace of appId. The first component
records the emits performed, in the order the synchronous promise executors
run them. -/
def sendNotification (req : NotifyReq) (now : Int) : List Emit × Except ErrObj SendStats :=
  if !(hasTarget req.users || hasTarget req.devices || hasTarget req.eventTopics) then
    ([], .error ⟨"At least one of \x27users\x27, \x27devices\x27, or \x27eventTopics\x27 must be provided", 400⟩)
  else
    let payload := prepareNotificationData ((req.data).getD (.vobj .fnil)) now
    let en := (req.eventName).getD "dataUpdate"
    let userEmits :=
      if hasTarget req.users then
        (arrElems req.users).map (fun u => Emit.mk req.appId u en payload)
      else []
    let devEmits :=
      if hasTarget req.devices then
        (arrElems req.devices).map (fun d => Emit.mk req.appId d en payload)
      else []
    let topicEmits :=
      if hasTarget req.eventTopics then
        (arrElems req.eventTopics).map
          (fun t => Emit.mk req.appId t en (.vobj ((jsSpreadFields payload).set "topic" t)))
      else []
    (userEmits ++ devEmits ++ topicEmits,
      .ok ⟨optLen req.users, optLen req.devices, optLen req.eventTopics⟩)

/-- Socket sid of application ns receives one of the recorded emits when
some emit targets that application's namespace and a room sid currently
belongs to there. The global state g maps each application id to its own
namespace membership store. -/
def receives (g : String → NsState) (es : List Emit) (ns : String) (sid : String) : Prop :=
  ∃ e ∈ es, e.ns = ns ∧ sid ∈ getRoom (g ns) e.room

/-- Subscribe of one connection to the single topic t. -/
def subscribeOne (appId sid : String) (st : NsState) (t : String) : NsState × List Emit :=
  subscribeHandler appId sid st (.varr (.cons (.vstr t) .nil))

/-- Membership store after the connections listed in sids have each, in
order, subscribed to topic t. -/
def stateAfter (appId t : String) (st0 : NsState) (sids : List String) : NsState :=
  sids.foldl (fun st sid => (subscribeOne appId sid st t).1) st0

/-- Array.isArray test used by the subscribe guard. -/
def isJsArray : JSVal → Bool
  | .varr _ => true
  | _ => false

/-- Test that every element of an array is a string. -/
def allStrings : JSList → Bool
  | .nil => true
  | .cons (.vstr _) rest => allStrings rest
  | .cons _ _ => false

/-- Test following the specification wording for the subscribe guard, for
comparison with the source's Array.isArray check: the input is a list of
strings. -/
def isStringList : JSVal → Bool
  | .varr l => allStrings l
  | _ => false

/-- Key of the count room shadowing topic t. -/
def countKeyOf (t : String) : JSVal := .vstr (t ++ ":count")

lemma getRoom_joinRoom_self (st : NsState) (q : JSVal) (sid : String) :
    getRoom (joinRoom st q sid) q =
      if sid ∈ getRoom st q then getRoom st q else getRoom st q ++ [sid] := by
  show lookupRoom (addToRoom st.rooms q sid) q = _
  unfold getRoom
  induction st.rooms with
  | nil => simp [addToRoom, lookupRoom]
  | cons hd tl ih =>
    obtain ⟨k, ms⟩ := hd
    by_cases hk : k = q
    · subst hk
      simp [addToRoom, lookupRoom]
    · simp [addToRoom, lookupRoom, hk, ih]

lemma getRoom_joinRoom_ne (st : NsState) {q q' : JSVal} (sid : String) (h : q' ≠ q) :
    getRoom (joinRoom st q sid) q' = getRoom st q' := by
  show lookupRoom (addToRoom st.rooms q sid) q' = lookupRoom st.rooms q'
  induction st.rooms with
  | nil =>
    simp only [addToRoom, lookupRoom]
    rw [if_neg (fun hh : q = q' => h hh.symm)]
  | cons hd tl ih =>
    obtain ⟨k, ms⟩ := hd
    by_cases hk : k = q
    · have hne : ¬ k = q' := fun hh => h (hh.symm.trans hk)
      simp only [addToRoom, if_pos hk, lookupRoom, if_neg hne]
    · by_cases hk' : k = q'
      · simp only [addToRoom, if_neg hk, lookupRoom, if_pos hk']
      · simp only [addToRoom, if_neg hk, lookupRoom, if_neg hk', ih]

lemma mem_getRoom_joinRoom_self (st : NsState) (q : JSVal) (sid : String) :
    sid ∈ getRoom (joinRoom st q sid) q := by
  rw [getRoom_joinRoom_self]
  by_cases h : sid ∈ getRoom st q <;> simp [h]

lemma mem_getRoom_joinRoom_mono (st : NsState) {k : JSVal} (q : JSVal) {x : String}
    (sid : String) (h : x ∈ getRoom st k) : x ∈ getRoom (joinRoom st q sid) k := by
  by_cases hk : k = q
  · subst hk
    rw [getRoom_joinRoom_self]
    by_cases hs : sid ∈ getRoom st k <;> simp [hs, h]
  · rwa [getRoom_joinRoom_ne st sid hk]

lemma getRoom_joinRoom_ne_nil (st : NsState) {k : JSVal} (q : JSVal) (sid : String)
    (h : getRoom st k ≠ []) : getRoom (joinRoom st q sid) k ≠ [] := by
  obtain ⟨x, hx⟩ := List.exists_mem_of_ne_nil _ h
  exact List.ne_nil_of_mem (mem_getRoom_joinRoom_mono st q sid hx)

lemma mem_getRoom_joinList_mono (sid : String) :
    ∀ (ks : List JSVal) (st : NsState) {k : JSVal} {x : String},
      x ∈ getRoom st k → x ∈ getRoom (ks.foldl (fun s q => joinRoom s q sid) st) k := by
  intro ks
  induction ks with
  | nil => intro st k x h; simpa using h
  | cons q rest ih =>
    intro st k x h
    simp only [List.foldl_cons]
    exact ih _ (mem_getRoom_joinRoom_mono st q sid h)

lemma mem_getRoom_socketJoin_mono (st : NsState) (rooms : JSVal) {k : JSVal} {x : String}
    (sid : String) (h : x ∈ getRoom st k) : x ∈ getRoom (socketJoin st rooms sid) k :=
  mem_getRoom_joinList_mono sid (joinTargets rooms) st h

lemma mem_getRoom_joinList_self (sid : String) :
    ∀ (ks : List JSVal) (st : NsState) {k : JSVal}, k ∈ ks →
      sid ∈ getRoom (ks.foldl (fun s q => joinRoom s q sid) st) k := by
  intro ks
  induction ks with
  | nil => intro st k h; cases h
  | cons q rest ih =>
    intro st k h
    simp only [List.foldl_cons]
    rcases List.mem_cons.mp h with h0 | hrest
    · subst h0
      exact mem_getRoom_joinList_mono sid rest _ (mem_getRoom_joinRoom_self st k sid)
    · exact ih _ hrest

lemma mem_getRoom_socketJoin_self (st : NsState) (rooms : JSVal) {k : JSVal} (sid : String)
    (h : k ∈ joinTargets rooms) : sid ∈ getRoom (socketJoin st rooms sid) k :=
  mem_getRoom_joinList_self sid (joinTargets rooms) st h

lemma socketJoin_vstr (st : NsState) (t sid : String) :
    socketJoin st (.vstr t) sid = joinRoom st (.vstr t) sid := rfl

lemma subLoop_fst_mono_mem (appId sid : String) (ts : List JSVal) :
    ∀ (st : NsState) (k : JSVal) (x : String), x ∈ getRoom st k →
      x ∈ getRoom (subLoop appId sid st ts).1 k := by
  induction ts with
  | nil => intro st k x h; simpa [subLoop] using h
  | cons t rest ih =>
    intro st k x h
    simp only [subLoop]
    exact ih _ _ _ (mem_getRoom_socketJoin_mono st t sid h)

lemma subLoop_fst_ne_nil (appId sid : String) (ts : List JSVal) (st : NsState) (k : JSVal)
    (h : getRoom st k ≠ []) : getRoom (subLoop appId sid st ts).1 k ≠ [] := by
  obtain ⟨x, hx⟩ := List.exists_mem_of_ne_nil _ h
  exact List.ne_nil_of_mem (subLoop_fst_mono_mem appId sid ts st k x hx)

lemma mem_subLoop_join (appId sid : String) (ts : List JSVal) :
    ∀ (st : NsState) (t k : JSVal), t ∈ ts → k ∈ joinTargets t →
      sid ∈ getRoom (subLoop appId sid st ts).1 k := by
  induction ts with
  | nil => intro st t k h _; cases h
  | cons t0 rest ih =>
    intro st t k h hk
    simp only [subLoop]
    rcases List.mem_cons.mp h with h0 | hrest
    · subst h0
      exact subLoop_fst_mono_mem appId sid rest _ _ _
        (mem_getRoom_socketJoin_self st t sid hk)
    · exact ih _ _ _ hrest hk

lemma subLoop_emits_room_ne_nil (appId sid : String) (ts : List JSVal) :
    ∀ (st : NsState), ∀ e ∈ (subLoop appId sid st ts).2,
      getRoom (subLoop appId sid st ts).1 e.room ≠ [] := by
  induction ts with
  | nil => intro st e he; simp [subLoop] at he
  | cons t rest ih =>
    intro st e he
    simp only [subLoop, List.mem_append] at he ⊢
    rcases he with hes | he2
    · by_cases h1 : (getRoom (socketJoin st t sid) t).length > 0
      · simp only [if_pos h1] at hes
        by_cases h2 :
            (getRoom (socketJoin st t sid) (JSVal.vstr (jsCoerceStr t ++ ":count"))).length > 0
        · simp only [if_pos h2, List.mem_singleton] at hes
          subst hes
          exact subLoop_fst_ne_nil appId sid rest _ _
            (by simpa [List.length_pos_iff_ne_nil] using h2)
        · simp [if_neg h2] at hes
      · simp [if_neg h1] at hes
    · exact ih _ _ he2

lemma leaveLoop_map_vstr (appId sid : String) (st : NsState) (rs : List String) :
    leaveLoop appId sid st (rs.map JSVal.vstr) =
      .ok (rs.flatMap (leaveRoomEmits appId sid st)) := by
  induction rs with
  | nil => simp [leaveLoop]
  | cons r rest ih =>
    by_cases hr : r = sid
    · subst hr
      simp [leaveLoop, leaveRoomEmits, ih]
    · have hne : JSVal.vstr r ≠ JSVal.vstr sid := by
        intro h; exact hr (by cases h; rfl)
      simp only [List.map_cons, leaveLoop, if_neg hne, ih, List.flatMap_cons]
      simp [Except.map, leaveRoomEmits, hr]

lemma lookupRoom_eq_nil_of_not_mem_keys {l : List (JSVal × List String)} {k : JSVal}
    (h : k ∉ l.map Prod.fst) : lookupRoom l k = [] := by
  induction l with
  | nil => rfl
  | cons hd tl ih =>
    obtain ⟨k', ms⟩ := hd
    simp only [List.map_cons, List.mem_cons, not_or] at h
    simp only [lookupRoom, if_neg (fun hh : k' = k => h.1 hh.symm)]
    exact ih h.2

lemma lookupRoom_of_mem_nodup {l : List (JSVal × List String)} {k : JSVal} {ms : List String}
    (hnd : (l.map Prod.fst).Nodup) (hm : (k, ms) ∈ l) : lookupRoom l k = ms := by
  induction l with
  | nil => cases hm
  | cons hd tl ih =>
    simp only [List.map_cons, List.nodup_cons] at hnd
    rcases List.mem_cons.mp hm with h0 | htl
    · subst h0
      simp [lookupRoom]
    · have : hd.1 ≠ k := by
        intro hk
        exact hnd.1 (hk ▸ (List.mem_map.mpr ⟨(k, ms), htl, rfl⟩))
      simp [lookupRoom, this, ih hnd.2 htl]

lemma mem_of_lookupRoom_ne_nil {l : List (JSVal × List String)} {k : JSVal}
    (h : lookupRoom l k ≠ []) : (k, lookupRoom l k) ∈ l := by
  induction l with
  | nil => exact absurd rfl h
  | cons hd tl ih =>
    obtain ⟨k', ms⟩ := hd
    by_cases hk : k' = k
    · subst hk
      simp [lookupRoom]
    · simp only [lookupRoom, if_neg hk] at h ⊢
      exact List.mem_cons_of_mem _ (ih h)

lemma mem_socketRooms_of_mem_getRoom {st : NsState} {k : JSVal} {sid : String}
    (h : sid ∈ getRoom st k) : k ∈ socketRooms st sid := by
  have hne : lookupRoom st.rooms k ≠ [] := List.ne_nil_of_mem h
  have hmem := mem_of_lookupRoom_ne_nil hne
  exact List.mem_map.mpr ⟨(k, lookupRoom st.rooms k),
    List.mem_filter.mpr ⟨hmem, by simpa using h⟩, rfl⟩

lemma mem_getRoom_of_mem_socketRooms {st : NsState} {k : JSVal} {sid : String}
    (hnd : (roomKeys st).Nodup) (h : k ∈ socketRooms st sid) : sid ∈ getRoom st k := by
  obtain ⟨⟨k', ms⟩, hmem, hk⟩ := List.mem_map.mp h
  obtain ⟨hin, hsid⟩ := List.mem_filter.mp hmem
  cases hk
  have : lookupRoom st.rooms k' = ms := lookupRoom_of_mem_nodup hnd hin
  show sid ∈ lookupRoom st.rooms k'
  rw [this]
  simpa using hsid

lemma length_filter_ne_of_nodup {ms : List String} {sid : String}
    (hnd : ms.Nodup) (h : sid ∈ ms) :
    (ms.filter (fun m => m != sid)).length = ms.length - 1 := by
  induction ms with
  | nil => cases h
  | cons m rest ih =>
    simp only [List.nodup_cons] at hnd
    rcases List.mem_cons.mp h with h0 | hrest
    · have hm : m = sid := h0.symm
      subst hm
      have hrest' : rest.filter (fun x => x != m) = rest :=
        List.filter_eq_self.mpr (fun a ha => by
          simp only [bne_iff_ne, ne_eq, decide_eq_true_eq]
          intro hx; exact hnd.1 (hx ▸ ha))
      simp [List.filter_cons, hrest']
    · have hm : m ≠ sid := by intro hx; exact hnd.1 (hx ▸ hrest)
      have hlen : 1 ≤ rest.length := List.length_pos_of_mem hrest
      have hpos : (m != sid) = true := by simpa [bne_iff_ne] using hm
      simp only [List.filter_cons, hpos, if_true, List.length_cons, ih hnd.2 hrest]
      omega

lemma lookupRoom_removeList (sid : String) (k : JSVal) :
    ∀ (l : List (JSVal × List String)), (l.map Prod.fst).Nodup →
      lookupRoom ((l.map (fun p => (p.1, p.2.filter (fun m => m != sid)))).filter
          (fun p => !p.2.isEmpty)) k
        = (lookupRoom l k).filter (fun m => m != sid) := by
  intro l
  induction l with
  | nil => intro _; rfl
  | cons hd tl ih =>
    intro hnd
    obtain ⟨k', ms⟩ := hd
    simp only [List.map_cons, List.nodup_cons] at hnd
    simp only [List.map_cons]
    by_cases hemp : (ms.filter (fun m => m != sid)).isEmpty
    · have hdrop : ((k', ms.filter (fun m => m != sid)) ::
          tl.map (fun p => (p.1, p.2.filter (fun m => m != sid)))).filter
            (fun p => !p.2.isEmpty)
          = (tl.map (fun p => (p.1, p.2.filter (fun m => m != sid)))).filter
            (fun p => !p.2.isEmpty) := by
        apply List.filter_cons_of_neg
        simp [hemp]
      rw [hdrop]
      by_cases hk : k' = k
      · subst hk
        have hkeys : k' ∉ (((tl.map (fun p => (p.1, p.2.filter (fun m => m != sid)))).filter
            (fun p => !p.2.isEmpty)).map Prod.fst) := by
          intro hmem
          apply hnd.1
          obtain ⟨p, hp, hpk⟩ := List.mem_map.mp hmem
          obtain ⟨hp2, _⟩ := List.mem_filter.mp hp
          obtain ⟨p0, hp0, hp0e⟩ := List.mem_map.mp hp2
          exact List.mem_map.mpr ⟨p0, hp0, by rw [← hp0e] at hpk; simpa using hpk⟩
        rw [lookupRoom_eq_nil_of_not_mem_keys hkeys]
        have hnil : (ms.filter (fun m => m != sid)) = [] := by
          simpa using hemp
        simp [lookupRoom, hnil]
      · simp only [lookupRoom, if_neg hk]
        exact ih hnd.2
    · have hkeep : ((k', ms.filter (fun m => m != sid)) ::
          tl.map (fun p => (p.1, p.2.filter (fun m => m != sid)))).filter
            (fun p => !p.2.isEmpty)
          = (k', ms.filter (fun m => m != sid)) ::
            (tl.map (fun p => (p.1, p.2.filter (fun m => m != sid)))).filter
              (fun p => !p.2.isEmpty) := by
        apply List.filter_cons_of_pos
        simp [hemp]
      rw [hkeep]
      by_cases hk : k' = k
      · simp [lookupRoom, hk]
      · simp only [lookupRoom, if_neg hk]
        exact ih hnd.2

lemma getRoom_removeSocket {st : NsState} (hnd : (roomKeys st).Nodup) (sid : String)
    (k : JSVal) :
    getRoom (removeSocket st sid) k = (getRoom st k).filter (fun m => m != sid) :=
  lookupRoom_removeList sid k st.rooms hnd

lemma string_append_right_cancel {a b c : String} (h : a ++ c = b ++ c) : a = b := by
  have h2 : a.data ++ c.data = b.data ++ c.data := by
    have := congrArg String.data h
    simpa [String.data_append] using this
  exact String.ext (List.append_cancel_right h2)

lemma append_count_ne (t : String) : t ++ ":count" ≠ t := by
  intro h
  have h2 := congrArg (fun s => s.data.length) h
  simp [String.data_append] at h2

lemma JSFields.get_set_self : ∀ (f : JSFields) (k : String) (v : JSVal),
    (f.set k v).get k = some v
  | .fnil, k, v => by simp [JSFields.set, JSFields.get]
  | .fcons k0 v0 rest, k, v => by
    by_cases hk : k0 = k
    · simp [JSFields.set, JSFields.get, hk]
    · simp [JSFields.set, JSFields.get, hk, JSFields.get_set_self rest k v]

lemma JSFields.get_set_ne : ∀ (f : JSFields) {k k' : String} (v : JSVal), k' ≠ k →
    (f.set k v).get k' = f.get k'
  | .fnil, k, k', v, h => by
    simp only [JSFields.set, JSFields.get]
    rw [if_neg (fun hh : k = k' => h hh.symm)]
  | .fcons k0 v0 rest, k, k', v, h => by
    by_cases hk : k0 = k
    · subst hk
      have hne : ¬ k0 = k' := fun hh => h hh.symm
      simp only [JSFields.set, if_pos rfl, JSFields.get, if_neg hne]
    · simp only [JSFields.set, if_neg hk, JSFields.get]
      by_cases hk' : k0 = k' <;> simp [hk', JSFields.get_set_ne rest v h]

lemma prepare_get_type (data : JSVal) (now : Int) :
    objGet (prepareNotificationData data now) "type" =
      if jsTruthyOpt ((jsSpreadFields data).get "type") then (jsSpreadFields data).get "type"
      else some (.vstr "httpRequest") := by
  unfold prepareNotificationData
  by_cases h1 : jsTruthyOpt ((jsSpreadFields data).get "type")
  · simp only [if_pos h1]
    by_cases h2 : jsTruthyOpt ((jsSpreadFields data).get "timestamp")
    · simp [objGet, h1, h2]
    · simp only [if_neg h2, objGet, if_pos h1]
      rw [JSFields.get_set_ne _ _ (by decide)]
  · simp only [if_neg h1]
    have hty : ((jsSpreadFields data).set "type" (.vstr "httpRequest")).get "type" =
        some (.vstr "httpRequest") := JSFields.get_set_self _ _ _
    by_cases h2 : jsTruthyOpt (((jsSpreadFields data).set "type" (.vstr "httpRequest")).get
        "timestamp")
    · simp [objGet, h2, hty]
    · simp only [if_neg h2, objGet]
      rw [JSFields.get_set_ne _ _ (by decide), hty]

lemma prepare_get_timestamp (data : JSVal) (now : Int) :
    objGet (prepareNotificationData data now) "timestamp" =
      if jsTruthyOpt ((jsSpreadFields data).get "timestamp") then
        (jsSpreadFields data).get "timestamp"
      else some (.vnum now) := by
  unfold prepareNotificationData
  by_cases h1 : jsTruthyOpt ((jsSpreadFields data).get "type")
  · simp only [if_pos h1]
    by_cases h2 : jsTruthyOpt ((jsSpreadFields data).get "timestamp")
    · simp [objGet, h2]
    · simp [objGet, h2, JSFields.get_set_self]
  · simp only [if_neg h1]
    have hts : ((jsSpreadFields data).set "type" (.vstr "httpRequest")).get "timestamp" =
        (jsSpreadFields data).get "timestamp" := JSFields.get_set_ne _ _ (by decide)
    rw [hts]
    by_cases h2 : jsTruthyOpt ((jsSpreadFields data).get "timestamp")
    · simp [objGet, h2, hts]
    · simp [objGet, h2, JSFields.get_set_self]

lemma prepare_get_other (data : JSVal) (now : Int) {k : String}
    (h1 : k ≠ "type") (h2 : k ≠ "timestamp") :
    objGet (prepareNotificationData data now) k = (jsSpreadFields data).get k := by
  simp only [prepareNotificationData, objGet]
  by_cases ht : jsTruthyOpt ((jsSpreadFields data).get "type")
  · simp only [if_pos ht]
    by_cases hs : jsTruthyOpt ((jsSpreadFields data).get "timestamp")
    · simp only [if_pos hs]
    · simp only [if_neg hs]
      exact JSFields.get_set_ne _ _ h2
  · simp only [if_neg ht]
    by_cases hs : jsTruthyOpt (((jsSpreadFields data).set "type"
        (.vstr "httpRequest")).get "timestamp")
    · simp only [if_pos hs]
      exact JSFields.get_set_ne _ _ h1
    · simp only [if_neg hs]
      rw [JSFields.get_set_ne _ _ h2]
      exact JSFields.get_set_ne _ _ h1

lemma hasTarget_passes {req : NotifyReq} (now : Int)
    (h : hasTarget req.users = true ∨ hasTarget req.devices = true ∨
      hasTarget req.eventTopics = true) :
    (sendNotification req now).1 =
      (if hasTarget req.users then
        (arrElems req.users).map (fun u => Emit.mk req.appId u ((req.eventName).getD "dataUpdate")
          (prepareNotificationData ((req.data).getD (.vobj .fnil)) now))
      else []) ++
      (if hasTarget req.devices then
        (arrElems req.devices).map (fun d => Emit.mk req.appId d ((req.eventName).getD "dataUpdate")
          (prepareNotificationData ((req.data).getD (.vobj .fnil)) now))
      else []) ++
      (if hasTarget req.eventTopics then
        (arrElems req.eventTopics).map (fun t => Emit.mk req.appId t
          ((req.eventName).getD "dataUpdate")
          (.vobj ((jsSpreadFields (prepareNotificationData ((req.data).getD (.vobj .fnil))
            now)).set "topic" t)))
      else []) := by
  unfold sendNotification
  rcases h with h | h | h <;> simp [h]

lemma sendNotification_user_mem (req : NotifyReq) (now : Int)
    (h : hasTarget req.users = true) {u : JSVal} (hu : u ∈ arrElems req.users) :
    Emit.mk req.appId u ((req.eventName).getD "dataUpdate")
      (prepareNotificationData ((req.data).getD (.vobj .fnil)) now) ∈
      (sendNotification req now).1 := by
  rw [hasTarget_passes now (Or.inl h)]
  simp only [List.append_assoc, List.mem_append]
  exact Or.inl (by rw [if_pos h]; exact List.mem_map.mpr ⟨u, hu, rfl⟩)

lemma sendNotification_device_mem (req : NotifyReq) (now : Int)
    (h : hasTarget req.devices = true) {d : JSVal} (hd : d ∈ arrElems req.devices) :
    Emit.mk req.appId d ((req.eventName).getD "dataUpdate")
      (prepareNotificationData ((req.data).getD (.vobj .fnil)) now) ∈
      (sendNotification req now).1 := by
  rw [hasTarget_passes now (Or.inr (Or.inl h))]
  simp only [List.append_assoc, List.mem_append]
  exact Or.inr (Or.inl (by rw [if_pos h]; exact List.mem_map.mpr ⟨d, hd, rfl⟩))

lemma sendNotification_topic_mem (req : NotifyReq) (now : Int)
    (h : hasTarget req.eventTopics = true) {t : JSVal} (ht : t ∈ arrElems req.eventTopics) :
    Emit.mk req.appId t ((req.eventName).getD "dataUpdate")
      (.vobj ((jsSpreadFields (prepareNotificationData ((req.data).getD (.vobj .fnil))
        now)).set "topic" t)) ∈
      (sendNotification req now).1 := by
  rw [hasTarget_passes now (Or.inr (Or.inr h))]
  simp only [List.append_assoc, List.mem_append]
  exact Or.inr (Or.inr (by rw [if_pos h]; exact List.mem_map.mpr ⟨t, ht, rfl⟩))

lemma subscribeOne_fst (appId sid : String) (st : NsState) (t : String) :
    (subscribeOne appId sid st t).1 = joinRoom st (.vstr t) sid := by
  simp only [subscribeOne, subscribeHandler, JSList.toList, subLoop, socketJoin_vstr]

lemma subscribeOne_snd (appId sid : String) (st : NsState) (t : String) :
    (subscribeOne appId sid st t).2 =
      if 0 < (getRoom (joinRoom st (.vstr t) sid) (.vstr t)).length then
        if 0 < (getRoom (joinRoom st (.vstr t) sid) (countKeyOf t)).length then
          [⟨appId, countKeyOf t, "dataUpdate",
            countPayload (.vstr t) (getRoom (joinRoom st (.vstr t) sid) (.vstr t)).length⟩]
        else []
      else [] := by
  simp only [subscribeOne, subscribeHandler, JSList.toList, subLoop, socketJoin_vstr,
    countKeyOf, jsCoerceStr, List.append_nil, gt_iff_lt]

lemma stateAfter_room (appId t : String) :
    ∀ (sids : List String) (st0 : NsState) (pre0 : List String),
      getRoom st0 (.vstr t) = pre0 → sids.Nodup → (∀ s ∈ sids, s ∉ pre0) →
      getRoom (stateAfter appId t st0 sids) (.vstr t) = pre0 ++ sids := by
  intro sids
  induction sids with
  | nil => intro st0 pre0 h0 _ _; simpa [stateAfter] using h0
  | cons s rest ih =>
    intro st0 pre0 h0 hnd hdisj
    simp only [List.nodup_cons] at hnd
    have hstep : getRoom (joinRoom st0 (.vstr t) s) (.vstr t) = pre0 ++ [s] := by
      rw [getRoom_joinRoom_self, h0]
      rw [if_neg (hdisj s (List.mem_cons_self s rest))]
    have : stateAfter appId t st0 (s :: rest) =
        stateAfter appId t (joinRoom st0 (.vstr t) s) rest := by
      simp [stateAfter, subscribeOne_fst]
    rw [this, ih (joinRoom st0 (.vstr t) s) (pre0 ++ [s]) hstep hnd.2
      (fun x hx => by
        simp only [List.mem_append, List.mem_singleton, not_or]
        exact ⟨hdisj x (List.mem_cons_of_mem s hx), fun he => hnd.1 (he ▸ hx)⟩)]
    simp

lemma stateAfter_other (appId t : String) {k : JSVal} (hk : k ≠ .vstr t) :
    ∀ (sids : List String) (st0 : NsState),
      getRoom (stateAfter appId t st0 sids) k = getRoom st0 k := by
  intro sids
  induction sids with
  | nil => intro st0; simp [stateAfter]
  | cons s rest ih =>
    intro st0
    have : stateAfter appId t st0 (s :: rest) =
        stateAfter appId t (joinRoom st0 (.vstr t) s) rest := by
      simp [stateAfter, subscribeOne_fst]
    rw [this, ih, getRoom_joinRoom_ne _ _ hk]

lemma countKeyOf_ne_vstr (t : String) : countKeyOf t ≠ .vstr t := by
  intro h
  injection h with h'
  exact append_count_ne t h'

lemma disconnectingHandler_ok {appId sid : String} {st : NsState} {rs : List String}
    (hss : socketRooms st sid = rs.map JSVal.vstr) :
    disconnectingHandler appId sid st = .ok (rs.flatMap (leaveRoomEmits appId sid st)) := by
  rw [disconnectingHandler, hss]
  exact leaveLoop_map_vstr appId sid st rs

lemma leaveRoomEmits_of_eligible {appId sid : String} {st : NsState} {r : String}
    (h1 : r ≠ sid) (h2 : jsIncludes r ":" = true) (h3 : jsIncludes r "count" = false)
    (h4 : 1 < (getRoom st (.vstr r)).length) :
    leaveRoomEmits appId sid st r =
      [⟨appId, .vstr (r ++ ":count"), "dataUpdate",
        countPayload (.vstr r) ((getRoom st (.vstr r)).length - 1)⟩] := by
  simp only [leaveRoomEmits, if_neg h1, h2, h3]
  simp [h4]

lemma mem_leave_flatMap {appId sid : String} {st : NsState} {rs : List String} {e : Emit}
    (he : e ∈ rs.flatMap (leaveRoomEmits appId sid st)) :
    ∃ r' ∈ rs, r' ≠ sid ∧ jsIncludes r' ":" = true ∧ jsIncludes r' "count" = false ∧
      1 < (getRoom st (.vstr r')).length ∧
      e = ⟨appId, .vstr (r' ++ ":count"), "dataUpdate",
        countPayload (.vstr r') ((getRoom st (.vstr r')).length - 1)⟩ := by
  obtain ⟨r', hr', he'⟩ := List.mem_flatMap.mp he
  by_cases h1 : r' = sid
  · simp [leaveRoomEmits, h1] at he'
  · by_cases h2 : (jsIncludes r' ":" && !jsIncludes r' "count") = true
    · simp only [leaveRoomEmits, if_neg h1, if_pos h2] at he'
      by_cases h3 : 1 < (getRoom st (.vstr r')).length
      · simp only [if_pos h3, List.mem_singleton] at he'
        have h2' := Bool.and_eq_true_iff.mp h2
        exact ⟨r', hr', h1, h2'.1, by simpa using h2'.2, h3, he'⟩
      · simp [if_neg h3] at he'
    · simp [leaveRoomEmits, h1, h2] at he'

/-- C2: for every subscribe that joins a connection to a topic room whose
count room has at least one member, the handler broadcasts exactly one
dataUpdate message with payload type "count", the topic key, and the
post-join room size n to the count room (first conjunct, which also
establishes n > 0); consequently, when N distinct connections subscribe to
the same topic one after another starting from a state with an empty topic
room and a non-empty count room, the join of the connection preceded by pre
earlier subscribers broadcasts exactly the count pre.length + 1, i.e. the
k-th join broadcasts count k (second conjunct). -/
theorem subscribe_join_broadcasts_count :
    (∀ (appId sid : String) (st : NsState) (t : String) (rest : List JSVal),
      0 < (getRoom (joinRoom st (.vstr t) sid) (countKeyOf t)).length →
      0 < (getRoom (joinRoom st (.vstr t) sid) (.vstr t)).length ∧
      (subLoop appId sid st (.vstr t :: rest)).2 =
        ⟨appId, countKeyOf t, "dataUpdate",
          countPayload (.vstr t) (getRoom (joinRoom st (.vstr t) sid) (.vstr t)).length⟩ ::
        (subLoop appId sid (joinRoom st (.vstr t) sid) rest).2) ∧
    (∀ (appId t : String) (st0 : NsState) (pre : List String) (s : String) (post : List String),
      (pre ++ s :: post).Nodup →
      getRoom st0 (.vstr t) = [] →
      0 < (getRoom st0 (countKeyOf t)).length →
      (subscribeOne appId s (stateAfter appId t st0 pre) t).2 =
        [⟨appId, countKeyOf t, "dataUpdate", countPayload (.vstr t) (pre.length + 1)⟩]) := by
  constructor
  · intro appId sid st t rest hc
    have hmem := mem_getRoom_joinRoom_self st (.vstr t) sid
    have hpos : 0 < (getRoom (joinRoom st (.vstr t) sid) (.vstr t)).length :=
      List.length_pos_of_mem hmem
    refine ⟨hpos, ?_⟩
    simp only [subLoop, jsCoerceStr, socketJoin_vstr]
    rw [if_pos hpos]
    rw [show JSVal.vstr (t ++ ":count") = countKeyOf t from rfl, if_pos hc]
    simp
  · intro appId t st0 pre s post hnd h0 hc
    have hnd' := List.nodup_append.mp hnd
    have hsnp : s ∉ pre := fun hs => hnd'.2.2 hs (List.mem_cons_self s post)
    have hroom : getRoom (stateAfter appId t st0 pre) (.vstr t) = pre := by
      simpa using stateAfter_room appId t pre st0 [] h0 hnd'.1 (by simp)
    have hcount : getRoom (stateAfter appId t st0 pre) (countKeyOf t) =
        getRoom st0 (countKeyOf t) :=
      stateAfter_other appId t (countKeyOf_ne_vstr t) pre st0
    have hjoin : getRoom (joinRoom (stateAfter appId t st0 pre) (.vstr t) s) (.vstr t) =
        pre ++ [s] := by
      rw [getRoom_joinRoom_self, hroom, if_neg hsnp]
    have hjc : getRoom (joinRoom (stateAfter appId t st0 pre) (.vstr t) s) (countKeyOf t) =
        getRoom st0 (countKeyOf t) := by
      rw [getRoom_joinRoom_ne _ _ (countKeyOf_ne_vstr t), hcount]
    rw [subscribeOne_snd]
    rw [if_pos (by rw [hjoin]; simp), if_pos (by rw [hjc]; exact hc), hjoin]
    simp

/-- C2 witness: with a count subscriber c1 present and an empty topic room,
the second of two distinct subscribers joining topic t triggers exactly one
broadcast with count 2 to the count room. -/
theorem subscribe_join_broadcasts_count_witness :
    (subscribeOne "app" "s2"
        (stateAfter "app" "t" ⟨[(countKeyOf "t", ["c1"])]⟩ ["s1"]) "t").2 =
      [⟨"app", countKeyOf "t", "dataUpdate", countPayload (.vstr "t") 2⟩] :=
  subscribe_join_broadcasts_count.2 "app" "t" ⟨[(countKeyOf "t", ["c1"])]⟩ ["s1"] "s2" []
    (by decide) (by decide) (by decide)

/-- C3: for a disconnecting connection and every leave-eligible room it is a
member of, the room size n is read while the connection is still a member;
when n > 1 the handler's output contains the broadcast to the room's count
room with payload count n - 1, which equals the room's size after the
membership removal completes; when n is at most 1 (the disconnecting
connection was the last member) no emit of the handler targets that room's
count room. -/
theorem disconnect_presize_decrement_broadcast :
    ∀ (appId sid : String) (st : NsState) (rs : List String) (r : String),
      socketRooms st sid = rs.map JSVal.vstr →
      (roomKeys st).Nodup →
      (getRoom st (.vstr r)).Nodup →
      r ∈ rs → r ≠ sid →
      jsIncludes r ":" = true → jsIncludes r "count" = false →
      ∃ es, disconnectingHandler appId sid st = .ok es ∧
        (1 < (getRoom st (.vstr r)).length →
          (⟨appId, .vstr (r ++ ":count"), "dataUpdate",
            countPayload (.vstr r) ((getRoom st (.vstr r)).length - 1)⟩ : Emit) ∈ es ∧
          (getRoom (removeSocket st sid) (.vstr r)).length =
            (getRoom st (.vstr r)).length - 1) ∧
        ((getRoom st (.vstr r)).length ≤ 1 →
          ∀ e ∈ es, e.room ≠ JSVal.vstr (r ++ ":count")) := by
  intro appId sid st rs r hss hnd hmnd hr hrs hinc hninc
  refine ⟨rs.flatMap (leaveRoomEmits appId sid st), disconnectingHandler_ok hss, ?_, ?_⟩
  · intro hlen
    constructor
    · exact List.mem_flatMap.mpr ⟨r, hr, by
        rw [leaveRoomEmits_of_eligible hrs hinc hninc hlen]
        exact List.mem_singleton.mpr rfl⟩
    · have hsidmem : sid ∈ getRoom st (.vstr r) := by
        apply mem_getRoom_of_mem_socketRooms hnd
        rw [hss]
        exact List.mem_map.mpr ⟨r, hr, rfl⟩
      rw [getRoom_removeSocket hnd]
      exact length_filter_ne_of_nodup hmnd hsidmem
  · intro hlen e he hroom
    obtain ⟨r', _, _, _, _, h4, hee⟩ := mem_leave_flatMap he
    rw [hee] at hroom
    simp only at hroom
    have hrr : r' = r := string_append_right_cancel (by injection hroom)
    rw [hrr] at h4
    omega

/-- C3 witness: with topic room a:b holding members s1, s2 and count room
a:b:count holding c1, disconnecting s1 produces the broadcast with count 1
to a:b:count, and after removal the room a:b has exactly 1 member. -/
theorem disconnect_presize_decrement_broadcast_witness :
    ∃ es, disconnectingHandler "app" "s1"
        ⟨[(.vstr "s1", ["s1"]), (.vstr "a:b", ["s1", "s2"]), (.vstr "a:b:count", ["c1"])]⟩ =
        .ok es ∧
      (⟨"app", .vstr "a:b:count", "dataUpdate", countPayload (.vstr "a:b") 1⟩ : Emit) ∈ es ∧
      (getRoom (removeSocket
          ⟨[(.vstr "s1", ["s1"]), (.vstr "a:b", ["s1", "s2"]), (.vstr "a:b:count", ["c1"])]⟩
          "s1") (.vstr "a:b")).length = 1 := by
  obtain ⟨es, h1, h2, _⟩ := disconnect_presize_decrement_broadcast "app" "s1"
    ⟨[(.vstr "s1", ["s1"]), (.vstr "a:b", ["s1", "s2"]), (.vstr "a:b:count", ["c1"])]⟩
    ["s1", "a:b"] "a:b" (by decide) (by decide) (by decide) (by decide) (by decide)
    (by decide) (by decide)
  obtain ⟨h2a, h2b⟩ := h2 (by decide)
  exact ⟨es, h1, h2a, h2b⟩

/-- C8: a room of a disconnecting connection gets a leave broadcast exactly
when its key contains ":" and does not contain the substring "count"
anywhere (and, for the broadcast to actually fire, more than one member was
present); in particular every room key containing "count" anywhere, not
just as the reserved suffix, is excluded from leave broadcasts entirely
(second conjunct, for arbitrary keys). -/
theorem leave_eligibility_substring_rule :
    ∀ (appId sid : String) (st : NsState) (rs : List String) (r : String) (es : List Emit),
      socketRooms st sid = rs.map JSVal.vstr →
      r ∈ rs → r ≠ sid →
      disconnectingHandler appId sid st = .ok es →
      ((∃ e ∈ es, e.room = JSVal.vstr (r ++ ":count")) ↔
        (jsIncludes r ":" = true ∧ jsIncludes r "count" = false ∧
          1 < (getRoom st (.vstr r)).length)) ∧
      (∀ r' : String, jsIncludes r' "count" = true →
        ∀ e ∈ es, e.room ≠ JSVal.vstr (r' ++ ":count")) := by
  intro appId sid st rs r es hss hr hrs hok
  have hes : es = rs.flatMap (leaveRoomEmits appId sid st) := by
    rw [disconnectingHandler_ok hss] at hok
    exact (Except.ok.inj hok).symm
  subst hes
  constructor
  · constructor
    · rintro ⟨e, he, hroom⟩
      obtain ⟨r', _, _, h2, h3, h4, hee⟩ := mem_leave_flatMap he
      rw [hee] at hroom
      simp only at hroom
      have hrr : r' = r := string_append_right_cancel (by injection hroom)
      subst hrr
      exact ⟨h2, h3, h4⟩
    · rintro ⟨h2, h3, h4⟩
      refine ⟨⟨appId, .vstr (r ++ ":count"), "dataUpdate",
        countPayload (.vstr r) ((getRoom st (.vstr r)).length - 1)⟩, ?_, rfl⟩
      exact List.mem_flatMap.mpr ⟨r, hr, by
        rw [leaveRoomEmits_of_eligible hrs h2 h3 h4]
        exact List.mem_singleton.mpr rfl⟩
  · intro r' hcnt e he hroom
    obtain ⟨r'', _, _, _, h3, _, hee⟩ := mem_leave_flatMap he
    rw [hee] at hroom
    simp only at hroom
    have hrr : r'' = r' := string_append_right_cancel (by injection hroom)
    rw [hrr] at h3
    rw [hcnt] at h3
    cases h3

/-- C8 witness: in a state where disconnecting socket s1 is a member of its
id room, of topic room a:b (2 members) and of room acc:count:x (2 members,
key containing "count"), the handler broadcasts for a:b and the key
containing "count" is excluded. -/
theorem leave_eligibility_substring_rule_witness :
    ((∃ e ∈ [(⟨"app", .vstr "a:b:count", "dataUpdate",
        countPayload (.vstr "a:b") 1⟩ : Emit)],
      Emit.room e = JSVal.vstr ("a:b" ++ ":count")) ↔
        (jsIncludes "a:b" ":" = true ∧ jsIncludes "a:b" "count" = false ∧
          1 < (getRoom ⟨[(.vstr "s1", ["s1"]), (.vstr "a:b", ["s1", "s2"]),
            (.vstr "acc:count:x", ["s1", "s3"])]⟩ (.vstr "a:b")).length)) ∧
      (∀ r' : String, jsIncludes r' "count" = true →
        ∀ e ∈ [(⟨"app", .vstr "a:b:count", "dataUpdate",
          countPayload (.vstr "a:b") 1⟩ : Emit)],
          Emit.room e ≠ JSVal.vstr (r' ++ ":count")) :=
  leave_eligibility_substring_rule "app" "s1"
    ⟨[(.vstr "s1", ["s1"]), (.vstr "a:b", ["s1", "s2"]),
      (.vstr "acc:count:x", ["s1", "s3"])]⟩
    ["s1", "a:b", "acc:count:x"] "a:b" _ (by decide) (by decide) (by decide) (by decide)

/-- C1 counterexample: the on-leave path has no count-room guard. In a state
where topic room a:b has two members and its count room a:b:count has zero
members, disconnecting s1 makes the handler emit the count broadcast to
a:b:count even though that count room is empty — refuting the claim that on
the disconnect path the broadcast to the count room happens only if the
count room is non-empty. -/
theorem leave_broadcast_fires_into_empty_count_room :
    disconnectingHandler "app" "s1" ⟨[(.vstr "s1", ["s1"]), (.vstr "a:b", ["s1", "s2"])]⟩ =
      .ok [⟨"app", .vstr "a:b:count", "dataUpdate", countPayload (.vstr "a:b") 1⟩] ∧
    getRoom ⟨[(.vstr "s1", ["s1"]), (.vstr "a:b", ["s1", "s2"])]⟩ (.vstr "a:b:count") = [] := by
  decide

/-- C1 amended: the count-room guard exists only on the join path. First
conjunct: every count broadcast fired by a subscribe targets a room that is
non-empty in the resulting state (the join-path guard, membership having
only grown since the emit). Second conjunct: on the disconnect path an
eligible room with pre-removal size above 1 fires the broadcast
unconditionally — in particular even when its count room has zero members,
so that the message is then delivered to nobody. -/
theorem count_broadcast_guards_join_only :
    (∀ (appId sid : String) (st : NsState) (input : JSVal),
      ∀ e ∈ (subscribeHandler appId sid st input).2,
        getRoom (subscribeHandler appId sid st input).1 e.room ≠ []) ∧
    (∀ (appId sid : String) (st : NsState) (rs : List String) (r : String),
      socketRooms st sid = rs.map JSVal.vstr →
      r ∈ rs → r ≠ sid →
      jsIncludes r ":" = true → jsIncludes r "count" = false →
      1 < (getRoom st (.vstr r)).length →
      getRoom st (.vstr (r ++ ":count")) = [] →
      ∃ es, disconnectingHandler appId sid st = .ok es ∧
        (⟨appId, .vstr (r ++ ":count"), "dataUpdate",
          countPayload (.vstr r) ((getRoom st (.vstr r)).length - 1)⟩ : Emit) ∈ es) := by
  constructor
  · intro appId sid st input e he
    match input with
    | .varr topics =>
      exact subLoop_emits_room_ne_nil appId sid topics.toList st e he
    | .vnull => cases he
    | .vbool b => cases he
    | .vnum n => cases he
    | .vstr s => cases he
    | .vobj f => cases he
  · intro appId sid st rs r hss hr hrs hinc hninc hlen _
    refine ⟨rs.flatMap (leaveRoomEmits appId sid st), disconnectingHandler_ok hss, ?_⟩
    exact List.mem_flatMap.mpr ⟨r, hr, by
      rw [leaveRoomEmits_of_eligible hrs hinc hninc hlen]
      exact List.mem_singleton.mpr rfl⟩

/-- C1 amended witness: on join, the broadcast fired by subscribing to t
targets count room t:count, non-empty afterwards; on disconnect, the state
of the counterexample (empty count room, topic room of size 2) still fires
the count 1 broadcast. -/
theorem count_broadcast_guards_join_only_witness :
    getRoom (subscribeHandler "app" "s1" ⟨[(.vstr "t:count", ["c1"])]⟩
        (.varr (.cons (.vstr "t") .nil))).1 (.vstr "t:count") ≠ [] ∧
    ∃ es, disconnectingHandler "app" "s1"
        ⟨[(.vstr "s1", ["s1"]), (.vstr "a:b", ["s1", "s2"])]⟩ = .ok es ∧
      (⟨"app", .vstr "a:b:count", "dataUpdate", countPayload (.vstr "a:b") 1⟩ : Emit) ∈ es :=
  ⟨count_broadcast_guards_join_only.1 "app" "s1" ⟨[(.vstr "t:count", ["c1"])]⟩
      (.varr (.cons (.vstr "t") .nil))
      ⟨"app", .vstr "t:count", "dataUpdate", countPayload (.vstr "t") 1⟩ (by decide),
    count_broadcast_guards_join_only.2 "app" "s1"
      ⟨[(.vstr "s1", ["s1"]), (.vstr "a:b", ["s1", "s2"])]⟩ ["s1", "a:b"] "a:b"
      (by decide) (by decide) (by decide) (by decide) (by decide) (by decide) (by decide)⟩

/-- C9 counterexample: the subscribe guard only checks Array.isArray, not
that the elements are strings. The input holding the single number 42 is not
a list of strings, yet it is not rejected: the membership state changes and
a room keyed by the number 42 is joined — refuting the claim that every
input that is not a list of strings is rejected with no room joined and
unchanged state. -/
theorem subscribe_array_guard_counterexample :
    isStringList (.varr (.cons (.vnum 42) .nil)) = false ∧
    (subscribeHandler "app" "s1" ⟨[]⟩ (.varr (.cons (.vnum 42) .nil))).1 ≠ (⟨[]⟩ : NsState) ∧
    getRoom (subscribeHandler "app" "s1" ⟨[]⟩ (.varr (.cons (.vnum 42) .nil))).1
      (.vnum 42) = ["s1"] := by
  decide

/-- C9 amended: the subscribe request is rejected silently exactly when the
input is not an array: any non-array input leaves the state unchanged and
emits nothing (first conjunct), while any array input — whether or not its
elements are strings — is processed: every element is handed to
socket.join, which joins the element itself as a room key when it is not an
array and, the argument being flattened one level, joins each of its
members when it is (second conjunct, through joinTargets). -/
theorem subscribe_guard_checks_arrayness_only :
    (∀ (appId sid : String) (st : NsState) (input : JSVal),
      isJsArray input = false → subscribeHandler appId sid st input = (st, [])) ∧
    (∀ (appId sid : String) (st : NsState) (ts : JSList) (t k : JSVal),
      t ∈ ts.toList → k ∈ joinTargets t →
      sid ∈ getRoom (subscribeHandler appId sid st (.varr ts)).1 k) := by
  constructor
  · intro appId sid st input h
    match input with
    | .varr l => simp [isJsArray] at h
    | .vnull => rfl
    | .vbool b => rfl
    | .vnum n => rfl
    | .vstr s => rfl
    | .vobj f => rfl
  · intro appId sid st ts t k ht hk
    exact mem_subLoop_join appId sid ts.toList st t k ht hk

/-- C9 amended witness: a plain string input is ignored with unchanged
state; the array holding the number 42 joins s1 to the room keyed by that
number; and the array whose single element is the array with member "a"
joins s1 to the room keyed "a" (socket.join flattening). -/
theorem subscribe_guard_checks_arrayness_only_witness :
    subscribeHandler "app" "s1" ⟨[]⟩ (.vstr "oops") = (⟨[]⟩, []) ∧
    "s1" ∈ getRoom (subscribeHandler "app" "s1" ⟨[]⟩
      (.varr (.cons (.vnum 42) .nil))).1 (.vnum 42) ∧
    "s1" ∈ getRoom (subscribeHandler "app" "s1" ⟨[]⟩
      (.varr (.cons (.varr (.cons (.vstr "a") .nil)) .nil))).1 (.vstr "a") :=
  ⟨subscribe_guard_checks_arrayness_only.1 "app" "s1" ⟨[]⟩ (.vstr "oops") (by decide),
    subscribe_guard_checks_arrayness_only.2 "app" "s1" ⟨[]⟩
      (.cons (.vnum 42) .nil) (.vnum 42) (.vnum 42) (by decide) (by decide),
    subscribe_guard_checks_arrayness_only.2 "app" "s1" ⟨[]⟩
      (.cons (.varr (.cons (.vstr "a") .nil)) .nil) (.varr (.cons (.vstr "a") .nil))
      (.vstr "a") (by decide) (by decide)⟩

/-- C10: the subscribeCount handler has no array guard, so for every
non-array input it throws a TypeError on eventTopics.forEach inside the
handler, and in that case no count room is joined: the membership store in
force afterwards is unchanged. -/
theorem subscribeCount_non_array_throws :
    ∀ (sid : String) (st : NsState) (input : JSVal), isJsArray input = false →
      subscribeCountHandler sid st input =
        .error "TypeError: eventTopics.forEach is not a function" ∧
      subscribeCountApply sid st input = st := by
  intro sid st input h
  match input with
  | .varr l => simp [isJsArray] at h
  | .vnull => exact ⟨rfl, rfl⟩
  | .vbool b => exact ⟨rfl, rfl⟩
  | .vnum n => exact ⟨rfl, rfl⟩
  | .vstr s => exact ⟨rfl, rfl⟩
  | .vobj f => exact ⟨rfl, rfl⟩

/-- C10 witness: the string input "x" makes subscribeCount throw and leaves
the store untouched. -/
theorem subscribeCount_non_array_throws_witness :
    subscribeCountHandler "s1" ⟨[(.vstr "t", ["s2"])]⟩ (.vstr "x") =
      .error "TypeError: eventTopics.forEach is not a function" ∧
    subscribeCountApply "s1" ⟨[(.vstr "t", ["s2"])]⟩ (.vstr "x") =
      ⟨[(.vstr "t", ["s2"])]⟩ :=
  subscribeCount_non_array_throws "s1" ⟨[(.vstr "t", ["s2"])]⟩ (.vstr "x") (by decide)

lemma sendNotification_no_target {req : NotifyReq} (now : Int)
    (h1 : hasTarget req.users = false) (h2 : hasTarget req.devices = false)
    (h3 : hasTarget req.eventTopics = false) :
    sendNotification req now =
      ([], .error ⟨"At least one of \x27users\x27, \x27devices\x27, or \x27eventTopics\x27 must be provided",
        400⟩) := by
  unfold sendNotification
  rw [if_pos (by rw [h1, h2, h3]; rfl)]

lemma objGet_prepare_spread (data : JSVal) (now : Int) (k : String) :
    objGet (prepareNotificationData data now) k =
      (jsSpreadFields (prepareNotificationData data now)).get k := rfl

/-- C4: namespace isolation of the notification router. Every emit produced
while processing a notification request targets only rooms of the namespace
of that request's application id (first conjunct); hence no connection is
ever reached through another application's namespace: whenever an
application id b differs from the request's, nothing is received in b
(second conjunct), in particular for identically-named topic keys. -/
theorem notification_namespace_isolation :
    ∀ (req : NotifyReq) (now : Int),
      (∀ e ∈ (sendNotification req now).1, e.ns = req.appId) ∧
      ∀ (g : String → NsState) (b sid : String), b ≠ req.appId →
        ¬ receives g (sendNotification req now).1 b sid := by
  intro req now
  have hns : ∀ e ∈ (sendNotification req now).1, e.ns = req.appId := by
    intro e he
    by_cases hcond : hasTarget req.users = true ∨ hasTarget req.devices = true ∨
        hasTarget req.eventTopics = true
    · rw [hasTarget_passes now hcond] at he
      simp only [List.append_assoc, List.mem_append] at he
      rcases he with h | h | h
      · by_cases hc : hasTarget req.users = true
        · rw [if_pos hc] at h
          obtain ⟨u, _, rfl⟩ := List.mem_map.mp h
          rfl
        · rw [if_neg hc] at h
          cases h
      · by_cases hc : hasTarget req.devices = true
        · rw [if_pos hc] at h
          obtain ⟨d, _, rfl⟩ := List.mem_map.mp h
          rfl
        · rw [if_neg hc] at h
          cases h
      · by_cases hc : hasTarget req.eventTopics = true
        · rw [if_pos hc] at h
          obtain ⟨t, _, rfl⟩ := List.mem_map.mp h
          rfl
        · rw [if_neg hc] at h
          cases h
    · simp only [not_or, Bool.not_eq_true] at hcond
      rw [sendNotification_no_target now hcond.1 hcond.2.1 hcond.2.2] at he
      cases he
  refine ⟨hns, ?_⟩
  rintro g b sid hb ⟨e, he, hens, _⟩
  exact hb (by rw [← hens]; exact hns e he)

/-- C4 witness: with apps A and B both holding a topic room t (members a1
and b1 respectively), a notification to app A's topic t is not received by
b1 through app B. -/
theorem notification_namespace_isolation_witness :
    ¬ receives
      (fun a => if a = "A" then ⟨[(.vstr "t", ["a1"])]⟩ else ⟨[(.vstr "t", ["b1"])]⟩)
      (sendNotification
        ⟨"A", none, none, some (.varr (.cons (.vstr "t") .nil)), none, none⟩ 0).1
      "B" "b1" :=
  (notification_namespace_isolation
      ⟨"A", none, none, some (.varr (.cons (.vstr "t") .nil)), none, none⟩ 0).2
    (fun a => if a = "A" then ⟨[(.vstr "t", ["a1"])]⟩ else ⟨[(.vstr "t", ["b1"])]⟩)
    "B" "b1" (by decide)

/-- C5: when none of users, devices, eventTopics is a non-empty array, the
request fails before any delivery with the no-target error carrying
statusCode 400, and the emit record of the request is empty — validation
runs before any side effect. -/
theorem no_target_validation_rejects :
    ∀ (req : NotifyReq) (now : Int),
      hasTarget req.users = false → hasTarget req.devices = false →
      hasTarget req.eventTopics = false →
      sendNotification req now =
        ([], .error ⟨"At least one of \x27users\x27, \x27devices\x27, or \x27eventTopics\x27 must be provided",
          400⟩) :=
  fun _ now h1 h2 h3 => sendNotification_no_target now h1 h2 h3

/-- C5 witness: a request with an empty users array, a null eventTopics
field and no devices is rejected with the 400 no-target error and performs
zero emits. -/
theorem no_target_validation_rejects_witness :
    sendNotification ⟨"x", some (.varr .nil), none, some .vnull, none,
        some (.vobj (.fcons "a" (.vnum 1) .fnil))⟩ 7 =
      ([], .error ⟨"At least one of \x27users\x27, \x27devices\x27, or \x27eventTopics\x27 must be provided",
        400⟩) :=
  no_target_validation_rejects ⟨"x", some (.varr .nil), none, some .vnull, none,
    some (.vobj (.fcons "a" (.vnum 1) .fnil))⟩ 7 (by decide) (by decide) (by decide)

/-- C6 counterexample: when the caller's data object itself carries a topic
field, the user-targeted delivery carries that topic field too — refuting
the claim that deliveries to users and devices identity rooms carry a
payload with no topic field. Here data is the object with topic "z", user
u1 and topic t1 are both targeted, and u1's payload has topic "z". -/
theorem user_payload_topic_field_counterexample :
    ∃ e ∈ (sendNotification ⟨"x", some (.varr (.cons (.vstr "u1") .nil)), none,
        some (.varr (.cons (.vstr "t1") .nil)), none,
        some (.vobj (.fcons "topic" (.vstr "z") .fnil))⟩ 5).1,
      e.room = .vstr "u1" ∧ objGet e.payload "topic" = some (.vstr "z") := by
  decide

/-- C6 amended: each topic delivery uses a fresh per-topic copy of the
effective payload whose topic field is exactly that topic key (first
conjunct), the copy agrees with the base payload on every other field
(second conjunct), the base payload's topic field is exactly the
caller-supplied one — so absent whenever the caller's data has no topic
key — (third conjunct), and user and device deliveries carry the base
payload unchanged (fourth and fifth conjuncts). -/
theorem per_topic_payload_copies :
    ∀ (req : NotifyReq) (now : Int),
      hasTarget req.eventTopics = true →
      (∀ t ∈ arrElems req.eventTopics,
        (Emit.mk req.appId t ((req.eventName).getD "dataUpdate")
          (.vobj ((jsSpreadFields (prepareNotificationData ((req.data).getD (.vobj .fnil))
            now)).set "topic" t))) ∈ (sendNotification req now).1 ∧
        objGet (.vobj ((jsSpreadFields (prepareNotificationData ((req.data).getD (.vobj .fnil))
          now)).set "topic" t)) "topic" = some t) ∧
      (∀ (t : JSVal) (k : String), k ≠ "topic" →
        objGet (.vobj ((jsSpreadFields (prepareNotificationData ((req.data).getD (.vobj .fnil))
          now)).set "topic" t)) k =
        objGet (prepareNotificationData ((req.data).getD (.vobj .fnil)) now) k) ∧
      objGet (prepareNotificationData ((req.data).getD (.vobj .fnil)) now) "topic" =
        (jsSpreadFields ((req.data).getD (.vobj .fnil))).get "topic" ∧
      (hasTarget req.users = true → ∀ u ∈ arrElems req.users,
        (Emit.mk req.appId u ((req.eventName).getD "dataUpdate")
          (prepareNotificationData ((req.data).getD (.vobj .fnil)) now)) ∈
          (sendNotification req now).1) ∧
      (hasTarget req.devices = true → ∀ d ∈ arrElems req.devices,
        (Emit.mk req.appId d ((req.eventName).getD "dataUpdate")
          (prepareNotificationData ((req.data).getD (.vobj .fnil)) now)) ∈
          (sendNotification req now).1) := by
  intro req now htop
  refine ⟨?_, ?_, ?_, ?_, ?_⟩
  · intro t ht
    refine ⟨sendNotification_topic_mem req now htop ht, ?_⟩
    show ((jsSpreadFields (prepareNotificationData ((req.data).getD (.vobj .fnil))
      now)).set "topic" t).get "topic" = some t
    exact JSFields.get_set_self _ _ _
  · intro t k hk
    show ((jsSpreadFields (prepareNotificationData ((req.data).getD (.vobj .fnil))
      now)).set "topic" t).get k = _
    rw [JSFields.get_set_ne _ _ hk]
    exact (objGet_prepare_spread _ now k).symm
  · exact prepare_get_other _ now (by decide) (by decide)
  · intro hu u huu
    exact sendNotification_user_mem req now hu huu
  · intro hdev d hdd
    exact sendNotification_device_mem req now hdev hdd

/-- C6 amended witness: for the request targeting user u1, device d1 and
topic t1 with data carrying topic "z", the topic delivery's payload has
topic exactly t1 while sharing every other field with the base payload, and
d1's identity room receives the base payload unchanged. -/
theorem per_topic_payload_copies_witness :
    ((Emit.mk "x" (.vstr "t1") "dataUpdate"
      (.vobj ((jsSpreadFields (prepareNotificationData
        (.vobj (.fcons "topic" (.vstr "z") .fnil)) 5)).set "topic" (.vstr "t1")))) ∈
      (sendNotification ⟨"x", some (.varr (.cons (.vstr "u1") .nil)),
        some (.varr (.cons (.vstr "d1") .nil)),
        some (.varr (.cons (.vstr "t1") .nil)), none,
        some (.vobj (.fcons "topic" (.vstr "z") .fnil))⟩ 5).1 ∧
    objGet (.vobj ((jsSpreadFields (prepareNotificationData
      (.vobj (.fcons "topic" (.vstr "z") .fnil)) 5)).set "topic" (.vstr "t1")))
      "topic" = some (.vstr "t1")) ∧
    objGet (.vobj ((jsSpreadFields (prepareNotificationData
      (.vobj (.fcons "topic" (.vstr "z") .fnil)) 5)).set "topic" (.vstr "t1")))
      "type" =
      objGet (prepareNotificationData (.vobj (.fcons "topic" (.vstr "z") .fnil)) 5) "type" ∧
    (Emit.mk "x" (.vstr "d1") "dataUpdate"
      (prepareNotificationData (.vobj (.fcons "topic" (.vstr "z") .fnil)) 5)) ∈
      (sendNotification ⟨"x", some (.varr (.cons (.vstr "u1") .nil)),
        some (.varr (.cons (.vstr "d1") .nil)),
        some (.varr (.cons (.vstr "t1") .nil)), none,
        some (.vobj (.fcons "topic" (.vstr "z") .fnil))⟩ 5).1 :=
  ⟨(per_topic_payload_copies ⟨"x", some (.varr (.cons (.vstr "u1") .nil)),
      some (.varr (.cons (.vstr "d1") .nil)),
      some (.varr (.cons (.vstr "t1") .nil)), none,
      some (.vobj (.fcons "topic" (.vstr "z") .fnil))⟩ 5 (by decide)).1
      (.vstr "t1") (by decide),
    (per_topic_payload_copies ⟨"x", some (.varr (.cons (.vstr "u1") .nil)),
      some (.varr (.cons (.vstr "d1") .nil)),
      some (.varr (.cons (.vstr "t1") .nil)), none,
      some (.vobj (.fcons "topic" (.vstr "z") .fnil))⟩ 5 (by decide)).2.1
      (.vstr "t1") "type" (by decide),
    (per_topic_payload_copies ⟨"x", some (.varr (.cons (.vstr "u1") .nil)),
      some (.varr (.cons (.vstr "d1") .nil)),
      some (.varr (.cons (.vstr "t1") .nil)), none,
      some (.vobj (.fcons "topic" (.vstr "z") .fnil))⟩ 5 (by decide)).2.2.2.2
      (by decide) (.vstr "d1") (by decide)⟩

/-- C7 counterexample: the defaults are applied on JavaScript truthiness,
not key presence. With data carrying the present but falsy type value ""
the prepared payload's type is overwritten to "httpRequest", the code's
preparation differs from the presence-based one the claim describes, and a
user-targeted delivery carries the overwritten type — refuting that type is
set to "httpRequest" exactly when no type key was present. -/
theorem falsy_type_overwrite_counterexample :
    ((jsSpreadFields (.vobj (.fcons "type" (.vstr "") .fnil))).get "type").isSome = true ∧
    objGet (prepareNotificationData (.vobj (.fcons "type" (.vstr "") .fnil)) 0) "type" =
      some (.vstr "httpRequest") ∧
    prepareNotificationData (.vobj (.fcons "type" (.vstr "") .fnil)) 0 ≠
      specPrepareByPresence (.vobj (.fcons "type" (.vstr "") .fnil)) 0 ∧
    (∃ e ∈ (sendNotification ⟨"x", some (.varr (.cons (.vstr "u1") .nil)), none, none, none,
        some (.vobj (.fcons "type" (.vstr "") .fnil))⟩ 0).1,
      e.room = .vstr "u1" ∧ objGet e.payload "type" = some (.vstr "httpRequest")) := by
  decide

/-- C7 amended: the effective payload equals the caller-supplied data (or
the empty object when absent) with type set to "httpRequest" exactly when
the data's type value is absent or falsy, a timestamp attached exactly when
the data's timestamp value is absent or falsy, and every other field
unchanged; that payload is delivered to the identity room of every listed
user and of every listed device. -/
theorem payload_defaults_truthiness :
    ∀ (data : JSVal) (now : Int),
      (objGet (prepareNotificationData data now) "type" =
        if jsTruthyOpt ((jsSpreadFields data).get "type") then
          (jsSpreadFields data).get "type"
        else some (.vstr "httpRequest")) ∧
      (objGet (prepareNotificationData data now) "timestamp" =
        if jsTruthyOpt ((jsSpreadFields data).get "timestamp") then
          (jsSpreadFields data).get "timestamp"
        else some (.vnum now)) ∧
      (∀ k : String, k ≠ "type" → k ≠ "timestamp" →
        objGet (prepareNotificationData data now) k = (jsSpreadFields data).get k) ∧
      (∀ (req : NotifyReq), req.data = some data →
        (hasTarget req.users = true → ∀ u ∈ arrElems req.users,
          (Emit.mk req.appId u ((req.eventName).getD "dataUpdate")
            (prepareNotificationData data now)) ∈ (sendNotification req now).1) ∧
        (hasTarget req.devices = true → ∀ d ∈ arrElems req.devices,
          (Emit.mk req.appId d ((req.eventName).getD "dataUpdate")
            (prepareNotificationData data now)) ∈ (sendNotification req now).1)) := by
  intro data now
  refine ⟨prepare_get_type data now, prepare_get_timestamp data now,
    fun k h1 h2 => prepare_get_other data now h1 h2, ?_⟩
  intro req hd
  have hgd : (req.data).getD (.vobj .fnil) = data := by rw [hd]; rfl
  constructor
  · intro hu u huu
    have := sendNotification_user_mem req now hu huu
    rwa [hgd] at this
  · intro hdev d hdd
    have := sendNotification_device_mem req now hdev hdd
    rwa [hgd] at this

/-- C7 amended witness: for users u1, u2 and data carrying a = 1, both
identity rooms receive the payload, whose type is the injected
"httpRequest" (absent in the data) and whose field a is 1. -/
theorem payload_defaults_truthiness_witness :
    ((Emit.mk "x" (.vstr "u1") "dataUpdate"
      (prepareNotificationData (.vobj (.fcons "a" (.vnum 1) .fnil)) 0)) ∈
      (sendNotification ⟨"x",
        some (.varr (.cons (.vstr "u1") (.cons (.vstr "u2") .nil))), none, none, none,
        some (.vobj (.fcons "a" (.vnum 1) .fnil))⟩ 0).1) ∧
    ((Emit.mk "x" (.vstr "u2") "dataUpdate"
      (prepareNotificationData (.vobj (.fcons "a" (.vnum 1) .fnil)) 0)) ∈
      (sendNotification ⟨"x",
        some (.varr (.cons (.vstr "u1") (.cons (.vstr "u2") .nil))), none, none, none,
        some (.vobj (.fcons "a" (.vnum 1) .fnil))⟩ 0).1) ∧
    objGet (prepareNotificationData (.vobj (.fcons "a" (.vnum 1) .fnil)) 0) "type" =
      some (.vstr "httpRequest") ∧
    objGet (prepareNotificationData (.vobj (.fcons "a" (.vnum 1) .fnil)) 0) "a" =
      some (.vnum 1) :=
  ⟨((payload_defaults_truthiness (.vobj (.fcons "a" (.vnum 1) .fnil)) 0).2.2.2
      ⟨"x", some (.varr (.cons (.vstr "u1") (.cons (.vstr "u2") .nil))), none, none, none,
        some (.vobj (.fcons "a" (.vnum 1) .fnil))⟩ rfl).1 (by decide) (.vstr "u1") (by decide),
    ((payload_defaults_truthiness (.vobj (.fcons "a" (.vnum 1) .fnil)) 0).2.2.2
      ⟨"x", some (.varr (.cons (.vstr "u1") (.cons (.vstr "u2") .nil))), none, none, none,
        some (.vobj (.fcons "a" (.vnum 1) .fnil))⟩ rfl).1 (by decide) (.vstr "u2") (by decide),
    ((payload_defaults_truthiness (.vobj (.fcons "a" (.vnum 1) .fnil)) 0).1).trans (by decide),
    ((payload_defaults_truthiness (.vobj (.fcons "a" (.vnum 1) .fnil)) 0).2.2.1 "a"
      (by decide) (by decide)).trans (by decide)⟩
